import Mathlib

/-!
Verification of the stupid_chat_bot backend.

Shallow embeddings of the message-limit service, the WebSocket connection
manager, the chat/session repositories, the scheduled admin-report job and
the email-verification service, together with theorems checking the
specified behaviour of each. Database tables are modelled as lists of rows,
Python dicts as association lists, UUIDs as natural numbers, and the
SHA-256 hash as an arbitrary function parameter.
-/

namespace StupidChatBot

/-- A row of the `users` table (the fields the claims depend on). -/
structure User where
  id : Nat
  email : Option String
  provider : String
  role : String
  is_blocked : Bool
  is_email_verified : Bool
  message_limit : Option Int
  receive_reports : Bool
  deriving DecidableEq

/-- A row of the `messages` table. -/
structure Message where
  id : Nat
  session_id : Nat
  user_id : Option Nat
  sender : String
  content : String
  created_at : Nat
  deriving DecidableEq

/-- A row of the `chat_sessions` table; `is_default` models
`meta["is_default"]`. -/
structure ChatSession where
  id : Nat
  user_id : String
  is_default : Bool
  created_at : Nat
  deriving DecidableEq

/-- The database state seen by the message-limit service. -/
structure DB where
  users : List User
  sessions : List ChatSession
  messages : List Message
  deriving DecidableEq

namespace MessageLimits

/-- Model of `DEFAULT_LIMITS.get(role)`: the per-role limit table from
`message_limits.py`. `none` models Python `None`, both for the unlimited
roles (`unlimited`, `admin`) and for a role missing from the dict. -/
def DEFAULT_LIMITS (role : String) : Option Int :=
  if role = "anonymous" then some 5
  else if role = "user" then some 50
  else none

/-- Model of `MessageLimitsService.count_user_messages`. Counts only rows with
`sender = "user"`; by authenticated user id when present (Python truthiness:
a UUID value is always truthy), otherwise by the cookie user id owning the
session (SQL join on the session primary key, assumed unique), otherwise 0.
An empty cookie string is falsy in Python and also yields 0. -/
def count_user_messages (db : DB) (cookie_user_id : Option String)
    (auth_user_id : Option Nat) : Nat :=
  match auth_user_id with
  | some uid =>
      (db.messages.filter (fun m =>
        m.user_id == some uid && m.sender == "user")).length
  | none =>
      match cookie_user_id with
      | some cu =>
          if cu = "" then 0
          else
            (db.messages.filter (fun m =>
              m.sender == "user" &&
              db.sessions.any (fun s =>
                m.session_id == s.id && s.user_id == cu))).length
      | none => 0

/-- Model of `MessageLimitsService.get_user_limit`: returns
`(limit, role, requires_verification)`. User lookup models
`scalar_one_or_none` over the unique primary key. -/
def get_user_limit (db : DB) (auth_user_id : Option Nat) :
    Option Int × String × Bool :=
  match auth_user_id with
  | some uid =>
      match db.users.find? (fun u => u.id == uid) with
      | some user =>
          if user.is_blocked then (some 0, user.role, false)
          else if user.provider == "email" && !user.is_email_verified then
            (some 0, user.role, true)
          else
            match user.message_limit with
            | some l => (some l, user.role, false)
            | none => (DEFAULT_LIMITS user.role, user.role, false)
      | none => (DEFAULT_LIMITS "anonymous", "anonymous", false)
  | none => (DEFAULT_LIMITS "anonymous", "anonymous", false)

/-- The `MessageLimitInfo` dataclass. -/
structure MessageLimitInfo where
  limit : Option Int
  used : Nat
  remaining : Option Int
  is_unlimited : Bool
  can_send : Bool
  user_role : String
  requires_verification : Bool
  deriving DecidableEq

/-- Model of `MessageLimitsService.get_limit_info`. -/
def get_limit_info (db : DB) (cookie_user_id : Option String)
    (auth_user_id : Option Nat) : MessageLimitInfo :=
  let lrv := get_user_limit db auth_user_id
  let limit := lrv.1
  let role := lrv.2.1
  let requires_verification := lrv.2.2
  let used := count_user_messages db cookie_user_id auth_user_id
  let is_unlimited := limit.isNone
  let remaining : Option Int :=
    match limit with
    | none => none
    | some l => some (max 0 (l - (used : Int)))
  let can_send0 : Bool :=
    match limit with
    | none => true
    | some l => decide (0 < max 0 (l - (used : Int)))
  let can_send := if requires_verification then false else can_send0
  { limit := limit, used := used, remaining := remaining,
    is_unlimited := is_unlimited, can_send := can_send,
    user_role := role, requires_verification := requires_verification }

/-- Model of `MessageLimitsService.check_can_send`. -/
def check_can_send (db : DB) (cookie_user_id : Option String)
    (auth_user_id : Option Nat) : Bool × MessageLimitInfo :=
  let limit_info := get_limit_info db cookie_user_id auth_user_id
  (limit_info.can_send, limit_info)

end MessageLimits

namespace WS

/-- A message dict as stored in the in-memory conversation history
(`{"type": ..., "content": ..., "sender": ..., "timestamp": ...}`);
`none` models a missing or null timestamp key. -/
structure HistMsg where
  mtype : String
  content : String
  sender : String
  timestamp : Option String
  deriving DecidableEq

/-- The per-connection tuple
`(session_id, cookie_user_id, auth_user_id, conversation_history)`. -/
structure ConnInfo where
  session_id : Nat
  cookie_user_id : String
  auth_user_id : Option Nat
  history : List HistMsg
  deriving DecidableEq

/-- Python dict lookup, on an insertion-ordered association list. -/
def dget (l : List (Nat × α)) (k : Nat) : Option α :=
  (l.find? (fun p => p.1 == k)).map (fun p => p.2)

/-- Python dict assignment: replace the existing entry in place, else
append (dict keys are unique, so replacing the first match is exact). -/
def dset (l : List (Nat × α)) (k : Nat) (v : α) : List (Nat × α) :=
  match l with
  | [] => [(k, v)]
  | p :: t => if p.1 == k then (k, v) :: t else p :: dset t k v

/-- Python `del d[k]`. -/
def ddel (l : List (Nat × α)) (k : Nat) : List (Nat × α) :=
  l.filter (fun p => p.1 != k)

/-- The two dicts of `ConnectionManager.__init__`: websockets are modelled
by numeric identifiers. -/
structure ConnectionManager where
  session_connections : List (Nat × List Nat)
  connection_sessions : List (Nat × ConnInfo)
  deriving DecidableEq

/-- The freshly constructed manager. -/
def ConnectionManager.empty : ConnectionManager := ⟨[], []⟩

/-- Model of `ConnectionManager.register`. -/
def register (cm : ConnectionManager) (websocket : Nat) (session_id : Nat)
    (cookie_user_id : String) (auth_user_id : Option Nat)
    (history : List HistMsg) : ConnectionManager :=
  let conns := (dget cm.session_connections session_id).getD []
  { session_connections :=
      dset cm.session_connections session_id (conns ++ [websocket]),
    connection_sessions :=
      dset cm.connection_sessions websocket
        ⟨session_id, cookie_user_id, auth_user_id, history⟩ }

/-- Model of `ConnectionManager.disconnect`. `list.remove` removes the first
occurrence and is guarded by a membership test. -/
def disconnect (cm : ConnectionManager) (websocket : Nat) :
    ConnectionManager :=
  match dget cm.connection_sessions websocket with
  | none => cm
  | some info =>
      let sc :=
        match dget cm.session_connections info.session_id with
        | none => cm.session_connections
        | some conns =>
            let conns2 :=
              if conns.contains websocket then conns.erase websocket
              else conns
            if conns2 = [] then ddel cm.session_connections info.session_id
            else dset cm.session_connections info.session_id conns2
      { session_connections := sc,
        connection_sessions := ddel cm.connection_sessions websocket }

/-- Model of `ConnectionManager.broadcast_to_session`, as the trace of send
attempts. `dumps` models `json.dumps`, evaluated once before the loop; the
per-connection `try/except` means a failing send does not stop the loop,
so the trace pairs every registered connection, in list order, with the
same serialized string. -/
def broadcast_to_session (cm : ConnectionManager) (session_id : Nat)
    (dumps : α → String) (message : α) : List (Nat × String) :=
  let message_json := dumps message
  match dget cm.session_connections session_id with
  | none => []
  | some conns => conns.map (fun c => (c, message_json))

/-- The send attempts that succeed, given which connections raise on
`send_text`. -/
def successful_sends (fail : Nat → Bool) (trace : List (Nat × String)) :
    List (Nat × String) :=
  trace.filter (fun p => !fail p.1)

/-- Model of `ConnectionManager.add_to_history`: append, then keep only the last 50
messages (`history[-50:]`), and store the updated tuple. -/
def add_to_history (cm : ConnectionManager) (websocket : Nat)
    (message : HistMsg) : ConnectionManager :=
  match dget cm.connection_sessions websocket with
  | none => cm
  | some info =>
      let history := info.history ++ [message]
      let history2 :=
        if history.length > 50 then history.drop (history.length - 50)
        else history
      { cm with
        connection_sessions :=
          dset cm.connection_sessions websocket
            ⟨info.session_id, info.cookie_user_id, info.auth_user_id,
              history2⟩ }

/-- A register or disconnect call on the manager. -/
inductive CMOp where
  | reg (websocket session_id : Nat) (cookie_user_id : String)
      (auth_user_id : Option Nat) (history : List HistMsg)
  | disc (websocket : Nat)

/-- Apply one operation to the manager state. -/
def CMOp.apply (cm : ConnectionManager) : CMOp → ConnectionManager
  | .reg ws sid cu au h => register cm ws sid cu au h
  | .disc ws => disconnect cm ws

/-- Run a sequence of register/disconnect operations from the empty
manager. -/
def runOps (ops : List CMOp) : ConnectionManager :=
  ops.foldl CMOp.apply ConnectionManager.empty

/-- The C8 invariant: no session id maps to an empty connection list, and
a websocket is a key of `connection_sessions` iff it appears in the
connection list of the session recorded for it. -/
def ClaimInv (cm : ConnectionManager) : Prop :=
  (∀ sid conns, dget cm.session_connections sid = some conns →
    conns ≠ []) ∧
  (∀ ws, (∃ info, dget cm.connection_sessions ws = some info) ↔
    (∃ info conns, dget cm.connection_sessions ws = some info ∧
      dget cm.session_connections info.session_id = some conns ∧
      ws ∈ conns))

/-- Wire events sent by the websocket endpoint (the discriminating fields
of the JSON payloads). -/
inductive OutEvent where
  | message (content sender : String) (timestamp : Option String)
  | typing
  | aiStream (content : String)
  | aiStreamEnd
  | limitExceeded (content : String) (login_required : Bool)
  | limitUpdate
  deriving DecidableEq

/-- Model of `_get_limit_exceeded_message`. -/
def get_limit_exceeded_message (user_role : String) : String :=
  if user_role == "anonymous" then
    "You\x27ve reached your message limit as an anonymous user. Please sign in to continue chatting with more messages!"
  else if user_role == "user" then
    "You\x27ve reached your message limit. Please contact us at dremdem.ru for extended access."
  else
    "You\x27ve reached your message limit."

/-- The `ai_stream` broadcasts made by the streaming loop, one per yielded
chunk, in yield order. -/
def streamEvents : List String → List OutEvent
  | [] => []
  | c :: cs => OutEvent.aiStream c :: streamEvents cs

/-- Model of `ai_response_content`: the accumulator of the streaming loop
(`ai_response_content += chunk`). -/
def streamContent : List String → String → String
  | [], acc => acc
  | c :: cs, acc => streamContent cs (acc ++ c)

/-- The visible effects of one iteration of the `websocket_endpoint`
receive loop. -/
structure StepResult where
  to_sender : List OutEvent
  broadcasts : List OutEvent
  saved_user : List String
  saved_assistant : List String
  deriving DecidableEq

/-- The body of the `websocket_endpoint` receive loop for one parsed
client message. `can_send` and `user_role` are the values returned by
`check_can_send`; `chunks` is the sequence yielded by
`ai_service.generate_response_stream`. The result collects the events sent
only to the sending client (`send_to_client`), the events broadcast to
the session, the user and assistant messages persisted to the database,
and the updated manager state (in-memory histories). -/
def handle_chat_message (cm : ConnectionManager) (websocket : Nat)
    (content sender : String) (timestamp : Option String)
    (can_send : Bool) (user_role : String) (chunks : List String) :
    StepResult × ConnectionManager :=
  if !can_send then
    ({ to_sender := [OutEvent.limitExceeded
          (get_limit_exceeded_message user_role)
          (user_role == "anonymous")],
       broadcasts := [], saved_user := [], saved_assistant := [] }, cm)
  else
    let user_message : HistMsg := ⟨"message", content, sender, timestamp⟩
    let cm1 := add_to_history cm websocket user_message
    let ai_response_content := streamContent chunks ""
    let ai_message : HistMsg :=
      ⟨"message", ai_response_content, "assistant", none⟩
    let cm2 := add_to_history cm1 websocket ai_message
    ({ to_sender := [OutEvent.limitUpdate],
       broadcasts :=
         [OutEvent.message content sender timestamp, OutEvent.typing] ++
           streamEvents chunks ++ [OutEvent.aiStreamEnd],
       saved_user := [content],
       saved_assistant := [ai_response_content] }, cm2)

end WS

namespace Repo

/-- Model of `ORDER BY created_at ASC` on messages. -/
def byCreatedAsc (a b : Message) : Prop := a.created_at ≤ b.created_at

/-- Model of `ORDER BY created_at DESC` on messages. -/
def byCreatedDesc (a b : Message) : Prop := b.created_at ≤ a.created_at

instance : DecidableRel byCreatedAsc := fun a b =>
  inferInstanceAs (Decidable (a.created_at ≤ b.created_at))

instance : DecidableRel byCreatedDesc := fun a b =>
  inferInstanceAs (Decidable (b.created_at ≤ a.created_at))

instance : IsTotal Message byCreatedAsc :=
  ⟨fun a b => Nat.le_total a.created_at b.created_at⟩

instance : IsTrans Message byCreatedAsc :=
  ⟨fun _ _ _ h h2 => Nat.le_trans h h2⟩

instance : IsTotal Message byCreatedDesc :=
  ⟨fun a b => (Nat.le_total b.created_at a.created_at)⟩

instance : IsTrans Message byCreatedDesc :=
  ⟨fun _ _ _ h h2 => Nat.le_trans h2 h⟩

/-- Strict creation-time order, used to state uniqueness of the sorted
orders. -/
def byCreatedLt (a b : Message) : Prop := a.created_at < b.created_at

instance : IsAntisymm Message byCreatedLt :=
  ⟨fun _ _ h1 h2 => absurd (Nat.lt_trans h1 h2) (Nat.lt_irrefl _)⟩

/-- Model of `MessageRepository.get_by_session` (without pagination): the rows of
the session in ascending creation-time order. -/
def get_by_session (msgs : List Message) (session_id : Nat) :
    List Message :=
  List.insertionSort byCreatedAsc
    (msgs.filter (fun m => m.session_id == session_id))

/-- Model of `MessageRepository.get_recent`: `ORDER BY created_at DESC LIMIT limit`,
then reversed into chronological order. -/
def get_recent (msgs : List Message) (session_id : Nat) (limit : Nat) :
    List Message :=
  ((List.insertionSort byCreatedDesc
      (msgs.filter (fun m => m.session_id == session_id))).take
    limit).reverse

/-- Model of `MessageRepository.to_conversation_history`: the recent messages as
`{"type": "message", "sender": ..., "content": ...}` dicts. -/
def to_conversation_history (msgs : List Message) (session_id : Nat)
    (limit : Nat) : List WS.HistMsg :=
  (get_recent msgs session_id limit).map
    (fun m => ⟨"message", m.content, m.sender, none⟩)

end Repo

namespace Sessions

/-- Model of `ORDER BY created_at` on chat sessions. -/
def byCreatedAsc (a b : ChatSession) : Prop := a.created_at ≤ b.created_at

instance : DecidableRel byCreatedAsc := fun a b =>
  inferInstanceAs (Decidable (a.created_at ≤ b.created_at))

instance : IsTotal ChatSession byCreatedAsc :=
  ⟨fun a b => Nat.le_total a.created_at b.created_at⟩

instance : IsTrans ChatSession byCreatedAsc :=
  ⟨fun _ _ _ h h2 => Nat.le_trans h h2⟩

/-- Model of `SessionRepository.get_with_messages` with a `user_id` filter: the
unique row with this primary key, provided it is owned by the user. -/
def get_with_messages (sessions : List ChatSession) (session_id : Nat)
    (user_id : String) : Option ChatSession :=
  sessions.find? (fun s => s.id == session_id && s.user_id == user_id)

/-- Model of `SessionRepository.get_or_create_default`: first default session of
the user by `created_at`, else a new default session (`fresh_id` models
the generated UUID, `now` the creation timestamp). Returns the session
and the resulting table. -/
def get_or_create_default (sessions : List ChatSession) (user_id : String)
    (fresh_id : Nat) (now : Nat) : ChatSession × List ChatSession :=
  match (List.insertionSort byCreatedAsc
      (sessions.filter (fun s => s.user_id == user_id && s.is_default))).head? with
  | some s => (s, sessions)
  | none =>
      let s : ChatSession := ⟨fresh_id, user_id, true, now⟩
      (s, sessions ++ [s])

/-- Model of `ChatService.get_or_create_session` (session selection; the history it
also returns is `Repo.to_conversation_history` with limit 50). -/
def get_or_create_session (sessions : List ChatSession) (user_id : String)
    (session_id : Option Nat) (fresh_id : Nat) (now : Nat) :
    Nat × List ChatSession :=
  match session_id with
  | some sid =>
      match get_with_messages sessions sid user_id with
      | some s => (s.id, sessions)
      | none =>
          let r := get_or_create_default sessions user_id fresh_id now
          (r.1.id, r.2)
  | none =>
      let r := get_or_create_default sessions user_id fresh_id now
      (r.1.id, r.2)

end Sessions

namespace Scheduler

/-- The single `report_schedule` row (id = 1). -/
structure ReportSchedule where
  enabled : Bool
  schedule_type : String
  day_of_week : String
  hour : Nat
  minute : Nat
  deriving DecidableEq

/-- Model of `send_scheduled_admin_report`: the list of `(email, days)` report
sends the job attempts, given the schedule row (`none` when the table has
no row) and the `users` table. -/
def send_scheduled_admin_report (schedule : Option ReportSchedule)
    (users : List User) : List (String × Nat) :=
  match schedule with
  | none => []
  | some sch =>
      if !sch.enabled then []
      else
        let days := if sch.schedule_type == "weekly" then 7 else 1
        let subscribers := users.filter (fun u =>
          u.receive_reports && u.email.isSome && !u.is_blocked)
        if subscribers.isEmpty then []
        else subscribers.map (fun u => (u.email.getD "", days))

end Scheduler

namespace Verification

/-- A row of the `email_verification_tokens` table; times are epoch
seconds. -/
structure EmailVerificationToken where
  user_id : Nat
  token_hash : String
  is_used : Bool
  expires_at : Int
  created_at : Int
  deriving DecidableEq

/-- The database state seen by the verification service. -/
structure VDB where
  tokens : List EmailVerificationToken
  users : List User
  deriving DecidableEq

/-- Result of `verify_token`: `exn` is the `MultipleResultsFound` raised
by `scalar_one_or_none` when several unused tokens share the hash. -/
inductive VerifyResult where
  | exn
  | ok (user : Option User) (db : VDB)
  deriving DecidableEq

/-- Model of `VerificationService.verify_token`. `hash_fn` models `_hash_token`
(SHA-256); `now` models `datetime.now(timezone.utc)`. On success the
matched token is marked used and the user row (unique primary key) marked
email-verified; on any failure nothing is written. -/
def verify_token (hash_fn : String → String) (db : VDB) (now : Int)
    (raw_token : String) : VerifyResult :=
  let token_hash := hash_fn raw_token
  match db.tokens.filter (fun t =>
      t.token_hash == token_hash && !t.is_used) with
  | [] => .ok none db
  | [token] =>
      if now > token.expires_at then .ok none db
      else
        match db.users.find? (fun u => u.id == token.user_id) with
        | none => .ok none db
        | some user =>
            .ok (some { user with is_email_verified := true })
              { tokens := db.tokens.map (fun t =>
                  if t.token_hash == token_hash && !t.is_used then
                    { t with is_used := true }
                  else t),
                users := db.users.map (fun u =>
                  if u.id == token.user_id then
                    { u with is_email_verified := true }
                  else u) }
  | _ => .exn

/-- Model of `VerificationService._invalidate_user_tokens`: mark every unused token
of the user as used. -/
def invalidate_user_tokens (db : VDB) (user_id : Nat) : VDB :=
  { db with tokens := db.tokens.map (fun t =>
      if t.user_id == user_id && !t.is_used then { t with is_used := true }
      else t) }

/-- Model of `VerificationService.create_verification_token`: invalidate the user
tokens, then insert a fresh unused token expiring `expire_hours` hours
from `now`. Returns the raw token and the resulting state. -/
def create_verification_token (hash_fn : String → String) (db : VDB)
    (now : Int) (expire_hours : Int) (user : User) (raw_token : String) :
    String × VDB :=
  let db1 := invalidate_user_tokens db user.id
  let token : EmailVerificationToken :=
    ⟨user.id, hash_fn raw_token, false, now + expire_hours * 3600, now⟩
  (raw_token, { db1 with tokens := db1.tokens ++ [token] })

end Verification

end StupidChatBot

namespace StupidChatBot

open MessageLimits

/-- C1: `check_can_send` returns `can_send = true` iff the effective limit
is unlimited (`none`) or the count of `sender = "user"` messages of the user
is strictly below the limit, and no email verification is required; the
count and the effective limit are the ones computed by
`count_user_messages` (by auth user id when authenticated, else by cookie
user id over owned sessions) and `get_user_limit` (custom `message_limit`
when set, else the per-role table, with limit 0 for blocked and for
unverified email users). -/
theorem check_can_send_iff (db : DB) (cookie_user_id : Option String)
    (auth_user_id : Option Nat) :
    ((check_can_send db cookie_user_id auth_user_id).1 = true ↔
      (((get_user_limit db auth_user_id).1 = none ∨
        ∃ l : Int, (get_user_limit db auth_user_id).1 = some l ∧
          ((count_user_messages db cookie_user_id auth_user_id : Int) < l)) ∧
        (get_user_limit db auth_user_id).2.2 = false)) := by
  simp only [check_can_send, get_limit_info]
  rcases h : (get_user_limit db auth_user_id).1 with _ | l
  · simp [h]
  · simp [h]
    rcases hrv : (get_user_limit db auth_user_id).2.2 <;> simp [hrv]

theorem dget_dset_self {α : Type} (l : List (Nat × α)) (k : Nat) (v : α) :
    WS.dget (WS.dset l k v) k = some v := by
  induction l with
  | nil => simp [WS.dset, WS.dget]
  | cons p t ih =>
      simp only [WS.dset]
      by_cases h : p.1 = k
      · simp [WS.dget, h]
      · simpa [WS.dget, List.find?_cons, h] using ih

theorem dget_dset_ne {α : Type} (l : List (Nat × α)) (k k2 : Nat) (v : α)
    (h : k2 ≠ k) : WS.dget (WS.dset l k v) k2 = WS.dget l k2 := by
  induction l with
  | nil => simp [WS.dset, WS.dget, List.find?_cons, Ne.symm h]
  | cons p t ih =>
      simp only [WS.dset]
      by_cases hp : p.1 = k
      · simp [WS.dget, List.find?_cons, hp, Ne.symm h]
      · have hb : (p.1 == k) = false := by simp [hp]
        simp only [hb, Bool.false_eq_true, if_false]
        by_cases hp2 : p.1 = k2
        · simp [WS.dget, List.find?_cons, hp2]
        · have hb2 : (p.1 == k2) = false := by simp [hp2]
          simp only [WS.dget, List.find?_cons, hb2, Bool.false_eq_true,
            if_false] at ih ⊢
          exact ih

theorem dget_ddel_self {α : Type} (l : List (Nat × α)) (k : Nat) :
    WS.dget (WS.ddel l k) k = none := by
  induction l with
  | nil => rfl
  | cons p t ih =>
      simp only [WS.ddel, List.filter_cons] at ih ⊢
      by_cases hp : p.1 = k
      · simp only [hp, bne_self_eq_false, Bool.false_eq_true, if_false]
        exact ih
      · have hb : (p.1 != k) = true := by simp [hp]
        have hb2 : (p.1 == k) = false := by simp [hp]
        simp only [hb, if_true, WS.dget, List.find?_cons, hb2,
          Bool.false_eq_true, if_false]
        exact ih

theorem dget_ddel_ne {α : Type} (l : List (Nat × α)) (k k2 : Nat)
    (h : k2 ≠ k) : WS.dget (WS.ddel l k) k2 = WS.dget l k2 := by
  induction l with
  | nil => rfl
  | cons p t ih =>
      simp only [WS.ddel, List.filter_cons] at ih ⊢
      by_cases hp : p.1 = k
      · have h2 : (p.1 == k2) = false := by simp [hp, Ne.symm h]
        simp only [hp, bne_self_eq_false, Bool.false_eq_true, if_false]
        rw [ih]
        simp [WS.dget, List.find?_cons, h2]
      · have h1 : (p.1 != k) = true := by simp [hp]
        simp only [h1, if_true]
        by_cases hp2 : p.1 = k2
        · simp [WS.dget, List.find?_cons, hp2]
        · have h3 : (p.1 == k2) = false := by simp [hp2]
          simp only [WS.dget, List.find?_cons, h3, Bool.false_eq_true,
            if_false] at ih ⊢
          exact ih

/-- C2: `broadcast_to_session` attempts a send of the same serialized
message to every connection registered for the session, in list order
(registration order, since `register` appends); a send failure does not
remove later attempts (the successes are exactly the non-failing
connections, in order); a session with no registered connections gets
nothing. -/
theorem broadcast_to_session_spec {α : Type} (cm : WS.ConnectionManager)
    (session_id : Nat) (dumps : α → String) (message : α)
    (fail : Nat → Bool) :
    (WS.broadcast_to_session cm session_id dumps message =
      ((WS.dget cm.session_connections session_id).getD []).map
        (fun c => (c, dumps message))) ∧
    (WS.dget cm.session_connections session_id = none →
      WS.broadcast_to_session cm session_id dumps message = []) ∧
    (WS.successful_sends fail
        (WS.broadcast_to_session cm session_id dumps message) =
      (((WS.dget cm.session_connections session_id).getD []).filter
          (fun c => !fail c)).map (fun c => (c, dumps message))) ∧
    (∀ websocket cookie_user_id auth_user_id history,
      WS.dget (WS.register cm websocket session_id cookie_user_id
          auth_user_id history).session_connections session_id =
        some (((WS.dget cm.session_connections session_id).getD []) ++
          [websocket])) := by
  refine ⟨?_, ?_, ?_, ?_⟩
  · rcases h : WS.dget cm.session_connections session_id with _ | conns <;>
      simp [WS.broadcast_to_session, h]
  · intro h
    simp [WS.broadcast_to_session, h]
  · rcases h : WS.dget cm.session_connections session_id with _ | conns <;>
      simp [WS.broadcast_to_session, WS.successful_sends, h,
        List.filter_map, Function.comp_def]
  · intro websocket cookie_user_id auth_user_id history
    simp [WS.register, dget_dset_self]

/-- Witness for C2 at a concrete manager: a session with no registered
connections gets nothing. -/
theorem broadcast_to_session_spec_witness :
    WS.broadcast_to_session WS.ConnectionManager.empty 0
      (fun _ : Nat => "j") 7 = [] :=
  (broadcast_to_session_spec WS.ConnectionManager.empty 0
    (fun _ : Nat => "j") 7 (fun _ => false)).2.1 rfl

theorem streamEvents_eq_map (cs : List String) :
    WS.streamEvents cs = cs.map WS.OutEvent.aiStream := by
  induction cs with
  | nil => rfl
  | cons c cs ih => simp [WS.streamEvents, ih]

theorem join_cons (c : String) (cs : List String) :
    String.join (c :: cs) = c ++ String.join cs := by
  simp [String.join_eq]
  rfl

theorem streamContent_eq (cs : List String) (acc : String) :
    WS.streamContent cs acc = acc ++ String.join cs := by
  induction cs generalizing acc with
  | nil => simp [WS.streamContent, String.join]
  | cons c cs ih => simp [WS.streamContent, ih, join_cons, String.append_assoc]

/-- C5: for a message accepted under the limit, the endpoint broadcasts
the user message and typing indicator, then one `ai_stream` event per
yielded chunk in yield order, then `ai_stream_end` after the last chunk,
and the assistant message saved to the database is the concatenation of
all streamed chunks in order. -/
theorem websocket_stream_order (cm : WS.ConnectionManager)
    (websocket : Nat) (content sender : String)
    (timestamp : Option String) (user_role : String)
    (chunks : List String) :
    ((WS.handle_chat_message cm websocket content sender timestamp true
        user_role chunks).1.broadcasts =
      [WS.OutEvent.message content sender timestamp, WS.OutEvent.typing] ++
        chunks.map WS.OutEvent.aiStream ++ [WS.OutEvent.aiStreamEnd]) ∧
    ((WS.handle_chat_message cm websocket content sender timestamp true
        user_role chunks).1.saved_assistant = [String.join chunks]) := by
  constructor
  · simp [WS.handle_chat_message, streamEvents_eq_map]
  · simp [WS.handle_chat_message, streamContent_eq]

/-- C6: when `check_can_send` reports the limit is reached, the endpoint
sends only a `limit_exceeded` event to the sending client, with
`login_required` true exactly when the user role is `"anonymous"`, and
skips the message entirely: nothing is broadcast to the session, the
in-memory histories (the manager state) are unchanged, nothing is
persisted, and no AI events are produced. -/
theorem limit_exceeded_skips_message (cm : WS.ConnectionManager)
    (websocket : Nat) (content sender : String)
    (timestamp : Option String) (user_role : String)
    (chunks : List String) :
    (WS.handle_chat_message cm websocket content sender timestamp false
        user_role chunks =
      ({ to_sender := [WS.OutEvent.limitExceeded
            (WS.get_limit_exceeded_message user_role)
            (user_role == "anonymous")],
         broadcasts := [], saved_user := [], saved_assistant := [] }, cm)) ∧
    ((user_role == "anonymous") = true ↔ user_role = "anonymous") :=
  ⟨rfl, by simp⟩

theorem claimInv_empty : WS.ClaimInv WS.ConnectionManager.empty := by
  refine ⟨?_, ?_⟩
  · intro sid conns h
    simp [WS.dget, WS.ConnectionManager.empty] at h
  · intro ws
    constructor
    · rintro ⟨info, h⟩
      simp [WS.dget, WS.ConnectionManager.empty] at h
    · rintro ⟨info, conns, h, _, _⟩
      exact ⟨info, h⟩

theorem claimInv_register (cm : WS.ConnectionManager)
    (hinv : WS.ClaimInv cm) (ws sid : Nat) (cu : String)
    (au : Option Nat) (hist : List WS.HistMsg) :
    WS.ClaimInv (WS.register cm ws sid cu au hist) := by
  obtain ⟨hne, hcc⟩ := hinv
  constructor
  · intro sid2 conns2 h
    by_cases hs : sid2 = sid
    · subst hs
      rw [WS.register] at h
      simp only [dget_dset_self, Option.some.injEq] at h
      subst h
      simp
    · rw [WS.register] at h
      simp only at h
      rw [dget_dset_ne _ _ _ _ hs] at h
      exact hne sid2 conns2 h
  · intro ws2
    constructor
    · rintro ⟨info2, h2⟩
      by_cases hw : ws2 = ws
      · subst hw
        rw [WS.register] at h2
        simp only [dget_dset_self, Option.some.injEq] at h2
        subst h2
        refine ⟨⟨sid, cu, au, hist⟩,
          ((WS.dget cm.session_connections sid).getD []) ++ [ws2],
          ?_, ?_, ?_⟩
        · rw [WS.register]
          simp only
          exact dget_dset_self _ _ _
        · rw [WS.register]
          simp only
          exact dget_dset_self _ _ _
        · simp
      · rw [WS.register] at h2
        simp only at h2
        rw [dget_dset_ne _ _ _ _ hw] at h2
        obtain ⟨info3, conns3, hx, hy, hz⟩ := (hcc ws2).mp ⟨info2, h2⟩
        by_cases hs : info3.session_id = sid
        · refine ⟨info3, ((WS.dget cm.session_connections sid).getD []) ++
            [ws], ?_, ?_, ?_⟩
          · rw [WS.register]
            simp only
            rw [dget_dset_ne _ _ _ _ hw]
            exact hx
          · rw [WS.register]
            simp only [hs]
            exact dget_dset_self _ _ _
          · rw [hs] at hy
            rw [hy]
            simp only [Option.getD_some, List.mem_append]
            exact Or.inl hz
        · refine ⟨info3, conns3, ?_, ?_, hz⟩
          · rw [WS.register]
            simp only
            rw [dget_dset_ne _ _ _ _ hw]
            exact hx
          · rw [WS.register]
            simp only
            rw [dget_dset_ne _ _ _ _ hs]
            exact hy
    · rintro ⟨info, conns, h, _, _⟩
      exact ⟨info, h⟩

theorem claimInv_disconnect (cm : WS.ConnectionManager)
    (hinv : WS.ClaimInv cm) (ws : Nat) :
    WS.ClaimInv (WS.disconnect cm ws) := by
  obtain ⟨hne, hcc⟩ := hinv
  rcases hd : WS.dget cm.connection_sessions ws with _ | info
  · rw [WS.disconnect, hd]
    exact ⟨hne, hcc⟩
  · obtain ⟨info0, conns0, hx0, hy0, hz0⟩ := (hcc ws).mp ⟨info, hd⟩
    rw [hd, Option.some.injEq] at hx0
    subst hx0
    have hcont : conns0.contains ws = true := List.elem_eq_true_of_mem hz0
    rw [WS.disconnect]
    simp only [hd, hy0, hcont, if_true]
    by_cases herase : conns0.erase ws = []
    · rw [if_pos herase]
      constructor
      · intro sid2 conns2 h
        by_cases hs : sid2 = info.session_id
        · subst hs
          rw [dget_ddel_self] at h
          exact absurd h (by simp)
        · rw [dget_ddel_ne _ _ _ hs] at h
          exact hne sid2 conns2 h
      · intro ws2
        constructor
        · rintro ⟨info2, h2⟩
          by_cases hw : ws2 = ws
          · subst hw
            rw [dget_ddel_self] at h2
            exact absurd h2 (by simp)
          · rw [dget_ddel_ne _ _ _ hw] at h2
            obtain ⟨info3, conns3, hx, hy, hz⟩ := (hcc ws2).mp ⟨info2, h2⟩
            have hsne : info3.session_id ≠ info.session_id := by
              intro hsid
              rw [hsid, hy0, Option.some.injEq] at hy
              subst hy
              have : ws2 ∈ conns0.erase ws :=
                (List.mem_erase_of_ne hw).mpr hz
              rw [herase] at this
              exact absurd this (by simp)
            refine ⟨info3, conns3, ?_, ?_, hz⟩
            · rw [dget_ddel_ne _ _ _ hw]
              exact hx
            · rw [dget_ddel_ne _ _ _ hsne]
              exact hy
        · rintro ⟨info2, conns2, h, _, _⟩
          exact ⟨info2, h⟩
    · rw [if_neg herase]
      constructor
      · intro sid2 conns2 h
        by_cases hs : sid2 = info.session_id
        · subst hs
          rw [dget_dset_self, Option.some.injEq] at h
          subst h
          exact herase
        · rw [dget_dset_ne _ _ _ _ hs] at h
          exact hne sid2 conns2 h
      · intro ws2
        constructor
        · rintro ⟨info2, h2⟩
          by_cases hw : ws2 = ws
          · subst hw
            rw [dget_ddel_self] at h2
            exact absurd h2 (by simp)
          · rw [dget_ddel_ne _ _ _ hw] at h2
            obtain ⟨info3, conns3, hx, hy, hz⟩ := (hcc ws2).mp ⟨info2, h2⟩
            by_cases hs : info3.session_id = info.session_id
            · refine ⟨info3, conns0.erase ws, ?_, ?_, ?_⟩
              · rw [dget_ddel_ne _ _ _ hw]
                exact hx
              · rw [hs]
                exact dget_dset_self _ _ _
              · rw [hs, hy0, Option.some.injEq] at hy
                subst hy
                exact (List.mem_erase_of_ne hw).mpr hz
            · refine ⟨info3, conns3, ?_, ?_, hz⟩
              · rw [dget_ddel_ne _ _ _ hw]
                exact hx
              · rw [dget_dset_ne _ _ _ _ hs]
                exact hy
        · rintro ⟨info2, conns2, h, _, _⟩
          exact ⟨info2, h⟩

theorem claimInv_apply (cm : WS.ConnectionManager) (op : WS.CMOp)
    (hinv : WS.ClaimInv cm) : WS.ClaimInv (WS.CMOp.apply cm op) := by
  cases op with
  | reg ws sid cu au hist => exact claimInv_register cm hinv ws sid cu au hist
  | disc ws => exact claimInv_disconnect cm hinv ws

theorem claimInv_foldl (ops : List WS.CMOp) (cm : WS.ConnectionManager)
    (hinv : WS.ClaimInv cm) :
    WS.ClaimInv (ops.foldl WS.CMOp.apply cm) := by
  induction ops generalizing cm with
  | nil => exact hinv
  | cons op ops ih => exact ih _ (claimInv_apply cm op hinv)

/-- C8: starting from the empty manager, after any sequence of register
and disconnect operations, `session_connections` never maps a session id
to an empty list, and a websocket is a key of `connection_sessions` iff
it appears in the connection list of the session recorded for it. -/
theorem connection_manager_invariant (ops : List WS.CMOp) :
    WS.ClaimInv (WS.runOps ops) :=
  claimInv_foldl ops WS.ConnectionManager.empty claimInv_empty

theorem to_conversation_history_length (msgs : List Message)
    (session_id limit : Nat) :
    (Repo.to_conversation_history msgs session_id limit).length ≤ limit := by
  simp only [Repo.to_conversation_history, Repo.get_recent,
    List.length_map, List.length_reverse]
  exact List.length_take_le _ _

/-- C3: if the history registered for a connection holds at most 50
messages, then after `add_to_history` the stored history again holds at
most 50 messages and equals the last 50 of the old history with the new
message appended (so the oldest message is dropped exactly when the
window is full), and the recorded session is unchanged; histories loaded
at connection time satisfy the precondition because
`to_conversation_history` with limit 50 returns at most 50 messages. -/
theorem add_to_history_window (cm : WS.ConnectionManager) (websocket : Nat)
    (message : WS.HistMsg) (info : WS.ConnInfo)
    (hfind : WS.dget cm.connection_sessions websocket = some info)
    (hlen : info.history.length ≤ 50) :
    (∃ info2 : WS.ConnInfo,
      WS.dget (WS.add_to_history cm websocket message).connection_sessions
          websocket = some info2 ∧
      info2.history.length ≤ 50 ∧
      info2.history = (info.history ++ [message]).drop
        ((info.history ++ [message]).length - 50) ∧
      info2.session_id = info.session_id) ∧
    (∀ (msgs : List Message) (session_id : Nat),
      (Repo.to_conversation_history msgs session_id 50).length ≤ 50) := by
  refine ⟨?_, fun msgs session_id =>
    to_conversation_history_length msgs session_id 50⟩
  simp only [WS.add_to_history, hfind]
  by_cases hgt : (info.history ++ [message]).length > 50
  · rw [if_pos hgt]
    refine ⟨_, dget_dset_self _ _ _, ?_, rfl, rfl⟩
    simp only [List.length_drop]
    omega
  · rw [if_neg hgt]
    have h0 : (info.history ++ [message]).length - 50 = 0 := by omega
    refine ⟨_, dget_dset_self _ _ _, ?_, ?_, rfl⟩
    · simp only [List.length_append, List.length_cons, List.length_nil]
        at hgt ⊢
      omega
    · rw [h0, List.drop_zero]

/-- Witness for C3 at a concrete connection with an empty history. -/
theorem add_to_history_window_witness :
    (∃ info2 : WS.ConnInfo,
      WS.dget (WS.add_to_history
          (WS.register WS.ConnectionManager.empty 1 10 "u" none []) 1
          ⟨"message", "hi", "user", none⟩).connection_sessions 1 =
        some info2 ∧
      info2.history.length ≤ 50 ∧
      info2.history = (([] : List WS.HistMsg) ++
        ([⟨"message", "hi", "user", none⟩] : List WS.HistMsg)).drop
        ((([] : List WS.HistMsg) ++
          ([⟨"message", "hi", "user", none⟩] : List WS.HistMsg)).length -
            50) ∧
      info2.session_id = 10) ∧
    (∀ (msgs : List Message) (session_id : Nat),
      (Repo.to_conversation_history msgs session_id 50).length ≤ 50) :=
  add_to_history_window
    (WS.register WS.ConnectionManager.empty 1 10 "u" none []) 1
    ⟨"message", "hi", "user", none⟩ ⟨10, "u", none, []⟩ rfl (by decide)

theorem get_or_create_default_spec (sessions : List ChatSession)
    (user_id : String) (fresh_id now : Nat) :
    ((Sessions.get_or_create_default sessions user_id fresh_id now).1.user_id
        = user_id) ∧
    (Sessions.get_or_create_default sessions user_id fresh_id now).1 ∈
      (Sessions.get_or_create_default sessions user_id fresh_id now).2 ∧
    ((Sessions.get_or_create_default sessions user_id fresh_id now).1 ∈
        sessions ∨
      (Sessions.get_or_create_default sessions user_id fresh_id now).1.id =
        fresh_id) := by
  rcases hh : (List.insertionSort Sessions.byCreatedAsc
      (sessions.filter (fun s =>
        s.user_id == user_id && s.is_default))).head? with _ | s
  · simp [Sessions.get_or_create_default, hh]
  · have hmem : s ∈ sessions.filter (fun s =>
        s.user_id == user_id && s.is_default) :=
      (List.perm_insertionSort Sessions.byCreatedAsc _).subset
        (List.mem_of_mem_head? (by simp [hh]))
    have hmem2 := List.mem_filter.mp hmem
    simp only [Sessions.get_or_create_default, hh]
    refine ⟨?_, hmem2.1, Or.inl hmem2.1⟩
    have hpred := hmem2.2
    simp only [Bool.and_eq_true, beq_iff_eq] at hpred
    exact hpred.1

/-- C4: `get_or_create_session` returns the requested session id only if
a session with that id exists and is owned by the given user; when no id
is requested or the lookup (which filters by owner) fails, it returns the
id of the default session produced by `get_or_create_default` (created
when the user has none); and in every case the returned id belongs to a
session of this user in the resulting table, so a user is never connected
to a session of another user. `fresh_id` is the freshly generated UUID of a
created default session, assumed distinct from the requested id. -/
theorem get_or_create_session_ownership (sessions : List ChatSession)
    (user_id : String) (session_id : Option Nat) (fresh_id now : Nat)
    (hreq : session_id ≠ some fresh_id) :
    (∀ sid, session_id = some sid →
      (Sessions.get_or_create_session sessions user_id session_id fresh_id
          now).1 = sid →
      ∃ s ∈ sessions, s.id = sid ∧ s.user_id = user_id) ∧
    (∀ sid, session_id = some sid →
      Sessions.get_with_messages sessions sid user_id = none →
      (Sessions.get_or_create_session sessions user_id session_id fresh_id
          now).1 =
        (Sessions.get_or_create_default sessions user_id fresh_id
          now).1.id) ∧
    (session_id = none →
      (Sessions.get_or_create_session sessions user_id session_id fresh_id
          now).1 =
        (Sessions.get_or_create_default sessions user_id fresh_id
          now).1.id) ∧
    (∃ s ∈ (Sessions.get_or_create_session sessions user_id session_id
        fresh_id now).2,
      s.id = (Sessions.get_or_create_session sessions user_id session_id
        fresh_id now).1 ∧ s.user_id = user_id) := by
  obtain ⟨hdu, hdm, hdio⟩ :=
    get_or_create_default_spec sessions user_id fresh_id now
  refine ⟨?_, ?_, ?_, ?_⟩
  · rintro sid rfl hr
    rcases hf : Sessions.get_with_messages sessions sid user_id with _ | s
    · simp only [Sessions.get_or_create_session, hf] at hr
      rcases hdio with hin | hid
      · exact ⟨_, hin, hr, hdu⟩
      · exfalso
        apply hreq
        rw [hid] at hr
        rw [hr]
    · have hp := List.find?_some hf
      have hm := List.mem_of_find?_eq_some hf
      simp only [Bool.and_eq_true, beq_iff_eq] at hp
      exact ⟨s, hm, hp.1, hp.2⟩
  · rintro sid rfl hnone
    simp only [Sessions.get_or_create_session, hnone]
  · rintro rfl
    rfl
  · rcases session_id with _ | sid
    · exact ⟨_, hdm, rfl, hdu⟩
    · rcases hf : Sessions.get_with_messages sessions sid user_id with _ | s
      · simp only [Sessions.get_or_create_session, hf]
        exact ⟨_, hdm, rfl, hdu⟩
      · have hp := List.find?_some hf
        have hm := List.mem_of_find?_eq_some hf
        simp only [Bool.and_eq_true, beq_iff_eq] at hp
        simp only [Sessions.get_or_create_session, hf]
        exact ⟨s, hm, rfl, hp.2⟩

/-- Witness for C4 at a concrete table: the user requests their own
session and gets it back, owned by them. -/
theorem get_or_create_session_ownership_witness :
    ∃ s ∈ (Sessions.get_or_create_session [⟨5, "alice", true, 0⟩] "alice"
        (some 5) 99 1).2,
      s.id = (Sessions.get_or_create_session [⟨5, "alice", true, 0⟩]
        "alice" (some 5) 99 1).1 ∧ s.user_id = "alice" :=
  (get_or_create_session_ownership [⟨5, "alice", true, 0⟩] "alice"
    (some 5) 99 1 (by decide)).2.2.2

/-- C7: the scheduled report job attempts a report for exactly the users
with `receive_reports` true, a non-null email and `is_blocked` false, with
a 7-day period when the schedule type is `"weekly"` and 1 day otherwise,
and attempts nothing when there is no schedule row or the schedule is
disabled (and, in particular, when no user is subscribed). -/
theorem send_scheduled_admin_report_spec :
    (∀ users, Scheduler.send_scheduled_admin_report none users = []) ∧
    (∀ (sch : Scheduler.ReportSchedule) users, sch.enabled = false →
      Scheduler.send_scheduled_admin_report (some sch) users = []) ∧
    (∀ (sch : Scheduler.ReportSchedule) users,
      users.filter (fun u =>
        u.receive_reports && u.email.isSome && !u.is_blocked) = [] →
      Scheduler.send_scheduled_admin_report (some sch) users = []) ∧
    (∀ (sch : Scheduler.ReportSchedule) users (e : String) (d : Nat),
      sch.enabled = true →
      ((e, d) ∈ Scheduler.send_scheduled_admin_report (some sch) users ↔
        ((∃ u ∈ users, u.email = some e ∧ u.receive_reports = true ∧
            u.is_blocked = false) ∧
          d = if sch.schedule_type = "weekly" then 7 else 1))) := by
  refine ⟨fun users => rfl, ?_, ?_, ?_⟩
  · intro sch users h
    simp [Scheduler.send_scheduled_admin_report, h]
  · intro sch users h
    rcases he : sch.enabled <;>
      simp [Scheduler.send_scheduled_admin_report, he, h]
  · intro sch users e d he
    have hdays : (if sch.schedule_type == "weekly" then (7 : Nat) else 1) =
        (if sch.schedule_type = "weekly" then 7 else 1) := by
      by_cases hstr : sch.schedule_type = "weekly" <;> simp [hstr]
    simp only [Scheduler.send_scheduled_admin_report, he, Bool.not_true,
      Bool.false_eq_true, if_false, hdays]
    by_cases hsub : users.filter (fun u =>
        u.receive_reports && u.email.isSome && !u.is_blocked) = []
    · simp only [hsub, List.isEmpty_nil, if_true, List.not_mem_nil,
        false_iff]
      rintro ⟨⟨u, hu, hue, hur, hub⟩, _⟩
      have hmem : u ∈ users.filter (fun u =>
          u.receive_reports && u.email.isSome && !u.is_blocked) := by
        simp [List.mem_filter, hu, hue, hur, hub]
      rw [hsub] at hmem
      exact absurd hmem (List.not_mem_nil u)
    · have hne : (users.filter (fun u =>
          u.receive_reports && u.email.isSome && !u.is_blocked)).isEmpty =
          false := by
        simpa [List.isEmpty_iff] using hsub
      simp only [hne, Bool.false_eq_true, if_false, List.mem_map,
        List.mem_filter]
      constructor
      · rintro ⟨u, ⟨hu, hp⟩, heq⟩
        simp only [Bool.and_eq_true, Bool.not_eq_true'] at hp
        obtain ⟨⟨hur, hue⟩, hub⟩ := hp
        rcases hemail : u.email with _ | em
        · rw [hemail] at hue
          simp at hue
        · rw [hemail] at heq
          simp only [Option.getD_some, Prod.mk.injEq] at heq
          obtain ⟨he2, hd2⟩ := heq
          subst he2
          exact ⟨⟨u, hu, hemail, hur, hub⟩, hd2.symm⟩
      · rintro ⟨⟨u, hu, hue, hur, hub⟩, hd⟩
        refine ⟨u, ⟨hu, by simp [hur, hue, hub]⟩, ?_⟩
        simp [hue, Prod.mk.injEq, hd]

theorem sortDesc_eq_reverse_sortAsc (l : List Message)
    (hp : l.Pairwise (fun a b => a.created_at ≠ b.created_at)) :
    List.insertionSort Repo.byCreatedDesc l =
      (List.insertionSort Repo.byCreatedAsc l).reverse := by
  have hasc : (List.insertionSort Repo.byCreatedAsc l).Sorted
      Repo.byCreatedAsc := List.sorted_insertionSort _ l
  have hdesc : (List.insertionSort Repo.byCreatedDesc l).Sorted
      Repo.byCreatedDesc := List.sorted_insertionSort _ l
  have hrev : (List.insertionSort Repo.byCreatedDesc l).reverse.Sorted
      Repo.byCreatedAsc := by
    have hh := List.pairwise_reverse.mpr hdesc
    exact hh.imp (fun hr => hr)
  have hperm1 : List.Perm (List.insertionSort Repo.byCreatedAsc l) l :=
    List.perm_insertionSort _ l
  have hperm2 : List.Perm (List.insertionSort Repo.byCreatedDesc l).reverse
      l :=
    ((List.insertionSort Repo.byCreatedDesc l).reverse_perm).trans
      (List.perm_insertionSort _ l)
  have hne1 : (List.insertionSort Repo.byCreatedAsc l).Pairwise
      (fun a b => a.created_at ≠ b.created_at) :=
    (List.Perm.pairwise_iff (fun h => Ne.symm h) hperm1).mpr hp
  have hne2 : (List.insertionSort Repo.byCreatedDesc l).reverse.Pairwise
      (fun a b => a.created_at ≠ b.created_at) :=
    (List.Perm.pairwise_iff (fun h => Ne.symm h) hperm2).mpr hp
  have hs1 : (List.insertionSort Repo.byCreatedAsc l).Sorted
      Repo.byCreatedLt :=
    (List.Pairwise.and hasc hne1).imp
      (fun h => Nat.lt_of_le_of_ne h.1 h.2)
  have hs2 : (List.insertionSort Repo.byCreatedDesc l).reverse.Sorted
      Repo.byCreatedLt :=
    (List.Pairwise.and hrev hne2).imp
      (fun h => Nat.lt_of_le_of_ne h.1 h.2)
  have heq : (List.insertionSort Repo.byCreatedDesc l).reverse =
      List.insertionSort Repo.byCreatedAsc l :=
    List.eq_of_perm_of_sorted (hperm2.trans hperm1.symm) hs2 hs1
  calc List.insertionSort Repo.byCreatedDesc l
      = (List.insertionSort Repo.byCreatedDesc l).reverse.reverse := by
        rw [List.reverse_reverse]
    _ = (List.insertionSort Repo.byCreatedAsc l).reverse := by rw [heq]

/-- C9: when the creation timestamps of the table are pairwise distinct,
`to_conversation_history` returns at most `limit` dicts, and `get_recent`
(reversing the first `limit` elements of the descending-ordered message
list of the session) equals the last `limit` elements of the
ascending-ordered message list of the session, so the result is the image
of those last `limit` messages. -/
theorem to_conversation_history_spec (msgs : List Message)
    (session_id limit : Nat)
    (hp : msgs.Pairwise (fun a b => a.created_at ≠ b.created_at)) :
    (Repo.to_conversation_history msgs session_id limit).length ≤ limit ∧
    Repo.get_recent msgs session_id limit =
      (Repo.get_by_session msgs session_id).drop
        ((Repo.get_by_session msgs session_id).length - limit) ∧
    Repo.to_conversation_history msgs session_id limit =
      ((Repo.get_by_session msgs session_id).drop
        ((Repo.get_by_session msgs session_id).length - limit)).map
        (fun m => ⟨"message", m.content, m.sender, none⟩) := by
  have hpf : (msgs.filter (fun m => m.session_id == session_id)).Pairwise
      (fun a b => a.created_at ≠ b.created_at) :=
    List.Pairwise.sublist (List.filter_sublist _) hp
  have hds := sortDesc_eq_reverse_sortAsc _ hpf
  have hrec : Repo.get_recent msgs session_id limit =
      (Repo.get_by_session msgs session_id).drop
        ((Repo.get_by_session msgs session_id).length - limit) := by
    rw [Repo.get_recent, hds, List.take_reverse, List.reverse_reverse,
      Repo.get_by_session]
  refine ⟨to_conversation_history_length _ _ _, hrec, ?_⟩
  rw [Repo.to_conversation_history, hrec]

/-- Witness for C9 at a two-message session with distinct timestamps:
with limit 1, only the later message survives. -/
theorem to_conversation_history_spec_witness :
    (Repo.to_conversation_history
      [⟨1, 7, none, "user", "a", 1⟩, ⟨2, 7, none, "assistant", "b", 2⟩]
      7 1).length ≤ 1 ∧
    Repo.get_recent
        [⟨1, 7, none, "user", "a", 1⟩, ⟨2, 7, none, "assistant", "b", 2⟩]
        7 1 =
      (Repo.get_by_session
        [⟨1, 7, none, "user", "a", 1⟩, ⟨2, 7, none, "assistant", "b", 2⟩]
        7).drop
        ((Repo.get_by_session
          [⟨1, 7, none, "user", "a", 1⟩, ⟨2, 7, none, "assistant", "b", 2⟩]
          7).length - 1) ∧
    Repo.to_conversation_history
        [⟨1, 7, none, "user", "a", 1⟩, ⟨2, 7, none, "assistant", "b", 2⟩]
        7 1 =
      ((Repo.get_by_session
        [⟨1, 7, none, "user", "a", 1⟩, ⟨2, 7, none, "assistant", "b", 2⟩]
        7).drop
        ((Repo.get_by_session
          [⟨1, 7, none, "user", "a", 1⟩, ⟨2, 7, none, "assistant", "b", 2⟩]
          7).length - 1)).map
        (fun m => ⟨"message", m.content, m.sender, none⟩) :=
  to_conversation_history_spec
    [⟨1, 7, none, "user", "a", 1⟩, ⟨2, 7, none, "assistant", "b", 2⟩]
    7 1 (by decide)

/-- C10: `verify_token` succeeds, marking the matched token used and the
matched user email-verified (adding or removing nothing), exactly when an
unused token with the matching hash exists, is not expired, and its user
exists; in every other case it returns `none` and leaves the database
unchanged (the uniqueness hypothesis rules out the
`MultipleResultsFound` exception of `scalar_one_or_none`); and after any
`create_verification_token` call at most one unused token exists for that
user. -/
theorem verify_token_spec (hash_fn : String → String)
    (db : Verification.VDB) (now : Int) (raw_token : String)
    (huniq : (db.tokens.filter (fun t =>
      t.token_hash == hash_fn raw_token && !t.is_used)).length ≤ 1) :
    ((¬ ∃ t ∈ db.tokens, t.token_hash = hash_fn raw_token ∧
        t.is_used = false ∧ now ≤ t.expires_at ∧
        ∃ u ∈ db.users, u.id = t.user_id) →
      Verification.verify_token hash_fn db now raw_token =
        Verification.VerifyResult.ok none db) ∧
    ((∃ t ∈ db.tokens, t.token_hash = hash_fn raw_token ∧
        t.is_used = false ∧ now ≤ t.expires_at ∧
        ∃ u ∈ db.users, u.id = t.user_id) →
      ∃ u db2, Verification.verify_token hash_fn db now raw_token =
          Verification.VerifyResult.ok (some u) db2 ∧
        u.is_email_verified = true ∧
        (∀ t2 ∈ db2.tokens, t2.token_hash = hash_fn raw_token →
          t2.is_used = true) ∧
        db2.tokens.length = db.tokens.length ∧
        u ∈ db2.users ∧ db2.users.length = db.users.length) ∧
    (∀ (expire_hours : Int) (user : User),
      ((Verification.create_verification_token hash_fn db now expire_hours
          user raw_token).2.tokens.filter (fun t =>
        t.user_id == user.id && !t.is_used)).length ≤ 1) := by
  refine ⟨?_, ?_, ?_⟩
  · intro hno
    rcases hfil : db.tokens.filter (fun t =>
        t.token_hash == hash_fn raw_token && !t.is_used) with _ | ⟨t, rest⟩
    · rw [Verification.verify_token]
      simp only [hfil]
    · rcases rest with _ | ⟨t2, rest2⟩
      · have htf : t ∈ db.tokens.filter (fun t =>
            t.token_hash == hash_fn raw_token && !t.is_used) := by
          rw [hfil]
          simp
        obtain ⟨htm, htp⟩ := List.mem_filter.mp htf
        simp only [Bool.and_eq_true, beq_iff_eq, Bool.not_eq_true'] at htp
        rw [Verification.verify_token]
        simp only [hfil]
        by_cases hexp : now > t.expires_at
        · rw [if_pos hexp]
        · rw [if_neg hexp]
          have huser : db.users.find? (fun u => u.id == t.user_id) =
              none := by
            apply List.find?_eq_none.mpr
            intro u hu hbeq
            apply hno
            exact ⟨t, htm, htp.1, htp.2, not_lt.mp hexp,
              ⟨u, hu, by simpa using hbeq⟩⟩
          rw [huser]
      · exfalso
        rw [hfil] at huniq
        simp at huniq
  · rintro ⟨t, htm, hhash, hused, hexp, u0, hu0m, hu0id⟩
    have htf : t ∈ db.tokens.filter (fun t =>
        t.token_hash == hash_fn raw_token && !t.is_used) :=
      List.mem_filter.mpr ⟨htm, by simp [hhash, hused]⟩
    have hlen1 : (db.tokens.filter (fun t =>
        t.token_hash == hash_fn raw_token && !t.is_used)).length = 1 := by
      have hpos := List.length_pos.mpr (List.ne_nil_of_mem htf)
      omega
    obtain ⟨t1, hfil⟩ := List.length_eq_one.mp hlen1
    have hteq : t = t1 := by
      rw [hfil] at htf
      simpa using htf
    subst hteq
    rw [Verification.verify_token]
    simp only [hfil]
    rw [if_neg (not_lt.mpr hexp)]
    rcases hfu : db.users.find? (fun u => u.id == t.user_id) with _ | user
    · exfalso
      have hn := List.find?_eq_none.mp hfu u0 hu0m
      simp [hu0id] at hn
    · rw [hfu]
      have humem := List.mem_of_find?_eq_some hfu
      have hupred := List.find?_some hfu
      simp only [beq_iff_eq] at hupred
      refine ⟨{ user with is_email_verified := true },
        ⟨db.tokens.map (fun tk =>
            if tk.token_hash == hash_fn raw_token && !tk.is_used then
              { tk with is_used := true }
            else tk),
          db.users.map (fun u2 =>
            if u2.id == t.user_id then
              { u2 with is_email_verified := true }
            else u2)⟩,
        rfl, rfl, ?_, by simp, ?_, by simp⟩
      · intro t2 ht2 hh2
        simp only [List.mem_map] at ht2
        obtain ⟨t0, ht0m, ht0eq⟩ := ht2
        by_cases hp0 : (t0.token_hash == hash_fn raw_token && !t0.is_used)
            = true
        · rw [if_pos hp0] at ht0eq
          rw [← ht0eq]
        · rw [if_neg hp0] at ht0eq
          subst ht0eq
          cases hu2 : t0.is_used with
          | false =>
              exfalso
              apply hp0
              simp [hh2, hu2]
          | true => rfl
      · apply List.mem_map.mpr
        exact ⟨user, humem, by rw [if_pos (by simpa using hupred)]⟩
  · intro expire_hours user
    rw [Verification.create_verification_token]
    simp only [Verification.invalidate_user_tokens, List.filter_append]
    have hmapped : ((db.tokens.map (fun t =>
        if t.user_id == user.id && !t.is_used then
          { t with is_used := true }
        else t)).filter (fun t => t.user_id == user.id && !t.is_used)) =
        [] := by
      apply List.filter_eq_nil_iff.mpr
      intro t2 ht2
      simp only [List.mem_map] at ht2
      obtain ⟨t0, ht0m, ht0⟩ := ht2
      by_cases hp0 : (t0.user_id == user.id && !t0.is_used) = true
      · rw [if_pos hp0] at ht0
        subst ht0
        simp
      · rw [if_neg hp0] at ht0
        subst ht0
        simpa using hp0
    rw [hmapped]
    simp

/-- Witness for C10: with the identity as hash stand-in, a fresh unused
unexpired token for an existing user verifies that user. -/
theorem verify_token_spec_witness :
    ∃ u db2, Verification.verify_token (fun s => s)
        ⟨[⟨3, "tok", false, 100, 0⟩],
         [⟨3, some "a@b.c", "email", "user", false, false, none, false⟩]⟩
        50 "tok" =
      Verification.VerifyResult.ok (some u) db2 ∧
      u.is_email_verified = true ∧
      (∀ t2 ∈ db2.tokens, t2.token_hash = (fun s : String => s) "tok" →
        t2.is_used = true) ∧
      db2.tokens.length =
        (⟨[⟨3, "tok", false, 100, 0⟩],
          [⟨3, some "a@b.c", "email", "user", false, false, none,
            false⟩]⟩ : Verification.VDB).tokens.length ∧
      u ∈ db2.users ∧
      db2.users.length =
        (⟨[⟨3, "tok", false, 100, 0⟩],
          [⟨3, some "a@b.c", "email", "user", false, false, none,
            false⟩]⟩ : Verification.VDB).users.length :=
  (verify_token_spec (fun s => s)
    ⟨[⟨3, "tok", false, 100, 0⟩],
     [⟨3, some "a@b.c", "email", "user", false, false, none, false⟩]⟩
    50 "tok" (by decide)).2.1
    ⟨⟨3, "tok", false, 100, 0⟩, by simp, by decide, by decide, by decide,
      ⟨3, some "a@b.c", "email", "user", false, false, none, false⟩,
      by simp, by decide⟩

/-- Witness for C7 at a concrete schedule and user table: the weekly
report goes exactly to the one subscribed, unblocked user with an email. -/
theorem send_scheduled_admin_report_spec_witness :
    ("a@b.c", 7) ∈ Scheduler.send_scheduled_admin_report
      (some ⟨true, "weekly", "mon", 8, 0⟩)
      [⟨1, some "a@b.c", "email", "user", false, true, none, true⟩,
       ⟨2, some "d@e.f", "email", "user", true, true, none, true⟩] :=
  (send_scheduled_admin_report_spec.2.2.2 ⟨true, "weekly", "mon", 8, 0⟩
      [⟨1, some "a@b.c", "email", "user", false, true, none, true⟩,
       ⟨2, some "d@e.f", "email", "user", true, true, none, true⟩]
      "a@b.c" 7 rfl).mpr
    ⟨⟨⟨1, some "a@b.c", "email", "user", false, true, none, true⟩,
      by simp, rfl, rfl, rfl⟩, by simp⟩

end StupidChatBot
